import Mathlib

/-!
Verification development for the go-kit-examples process-lifecycle subsystem
(`new_addsvc` main program) and the `AddSvcEndpoints` endpoint layer.

Go errors are modelled as `Option GoError` (`none` = nil), Go contexts as a
single cancellation flag, and the side effects of cleanup hooks as explicit
lists of `CleanAct` actions so that ordering and conditionality can be stated.
-/

/-- A Go `error` value; we only need its message. -/
abbrev GoError := String

/-- The two termination signals `main` subscribes to (`syscall.SIGINT`,
`syscall.SIGTERM`). -/
inductive Signal where
  | SIGINT
  | SIGTERM
deriving DecidableEq, Repr

/-- `%v` rendering of the two signals, as Go's `os.Signal.String()` produces. -/
def signalName : Signal → String
  | .SIGINT => "interrupt"
  | .SIGTERM => "terminated"

/-- A cancellable Go context (`context.WithCancel`): its only observable state
is whether it has been cancelled. -/
structure GoContext where
  cancelled : Bool
deriving DecidableEq, Repr

/-- The shared context created at startup (`context.WithCancel(Background())`),
initially not cancelled. -/
def shareCtx : GoContext := ⟨false⟩

/-- The cancel function returned by `context.WithCancel`: an irreversible
transition to the cancelled state, idempotent by Go's context semantics. -/
def cancelCtx (_ : GoContext) : GoContext := ⟨true⟩

/-- Observable state of the `main` package: the shared context plus the lines
written through `logger.Log`. -/
structure MainState where
  ctx : GoContext
  logged : List String
deriving DecidableEq, Repr

/-- `stopAllTaskFunc` from `main`: logs the error when it is non-nil, then
cancels the shared context via `cancelCtx()`. -/
def stopAllTaskFunc (err : Option GoError) (st : MainState) : MainState :=
  let st1 :=
    if err.isSome then { st with logged := st.logged ++ ["func stopAllTaskFunc err"] }
    else st
  { st1 with ctx := cancelCtx st1.ctx }

/-- One observable side effect of a cleanup hook.  `httpShutdown` records the
deadline (in seconds) of the context passed to `httpSrv.Shutdown`;
`grpcGracefulStop` is `grpcSrv.GracefulStop()`, which takes no deadline. -/
inductive CleanAct where
  | consulDeregister
  | httpShutdown (timeoutSec : Option Nat)
  | grpcGracefulStop
  | logMsg (m : String)
deriving DecidableEq, Repr

/-- The deadline of a graceful-stop call: `some t` when the action is a
graceful-stop of a listener with deadline `t` (`none` inside meaning
unbounded), and `none` when the action is not a graceful-stop at all. -/
def CleanAct.stopBound : CleanAct → Option (Option Nat)
  | .httpShutdown t => some t
  | .grpcGracefulStop => some none
  | _ => none

/-- Cleanup hook of the HTTP listener task (`addTaskHttpSrv`): if the run loop
exited with nil error, shut the server down under a 2-second context timeout
and log the outcome; otherwise do nothing. -/
def httpSrvClean (err : Option GoError) : List CleanAct :=
  match err with
  | none => [.httpShutdown (some 2), .logMsg "httpSrvTask exited clean"]
  | some _ => []

/-- Cleanup hook of the gRPC listener task (`addTaskGRPCSrv`): if the run loop
exited with nil error, call `grpcSrv.GracefulStop()` (no deadline) and log;
otherwise do nothing. -/
def grpcSrvClean (err : Option GoError) : List CleanAct :=
  match err with
  | none => [.grpcGracefulStop, .logMsg "grpcSrvTask exited clean"]
  | some _ => []

/-- Cleanup hook of the registry-registration task (`addTaskSvcRegister`): if
the run loop exited with nil error, deregister from consul and log; otherwise
do nothing. -/
def svcRegisterClean (err : Option GoError) : List CleanAct :=
  match err with
  | none => [.consulDeregister, .logMsg "SvcRegisterTask exited clean"]
  | some _ => []

/-- Which of the two events the `select` in the inline signal task observes
first: a delivered signal, or cancellation of the shared context. -/
inductive SelectWinner where
  | signalArrived (s : Signal)
  | ctxDone
deriving DecidableEq, Repr

/-- The inline signal-listener task registered first in `main`: on a signal it
returns `fmt.Errorf("recv-signal:%v", s)`; on context cancellation it falls
through the `select` and returns nil. -/
def listenSignalInlineTask (w : SelectWinner) : Option GoError :=
  match w with
  | .signalArrived s => some ("recv-signal:" ++ signalName s)
  | .ctxDone => none

/-- Outcome of running a task body: a normal return carrying the Go error, or
a panic unwinding out of the task. -/
inductive TaskOutcome where
  | returned (e : Option GoError)
  | panicked (msg : GoError)
deriving DecidableEq, Repr

/-- `true` exactly when the task body returned (did not panic). -/
def TaskOutcome.isReturned : TaskOutcome → Bool
  | .returned _ => true
  | .panicked _ => false

/-- Modelled from the spec: `_util.PanicIfErr` lives in `go-util`, not under
src/; §9 describes it as a "panic if error" helper, so it panics (raises a
fatal unwind carrying the error) when its argument is non-nil and is a no-op
otherwise. -/
def PanicIfErr (err : Option GoError) : Except GoError Unit :=
  match err with
  | some e => .error e
  | none => .ok ()

/-- The HTTP listener task body (`httpSrvTask` in `addTaskHttpSrv`): bind the
listener, pass the bind error to `PanicIfErr`, then serve and return the serve
error.  `listenRes` is the result of `net.Listen`, `serveRet` the error with
which `httpSrv.Serve` eventually returns. -/
def httpSrvTask (listenRes : Except GoError Unit) (serveRet : Option GoError) : TaskOutcome :=
  match PanicIfErr (match listenRes with | .error e => some e | .ok _ => none) with
  | .error e => .panicked e
  | .ok _ => .returned serveRet

/-- The gRPC listener task body (`grpcSrvTask` in `addTaskGRPCSrv`): bind the
listener, pass the bind error to `PanicIfErr`, register the Add and health
servers, then serve and return the serve error. -/
def grpcSrvTask (listenRes : Except GoError Unit) (serveRet : Option GoError) : TaskOutcome :=
  match PanicIfErr (match listenRes with | .error e => some e | .ok _ => none) with
  | .error e => .panicked e
  | .ok _ => .returned serveRet

/-- Identifier for the kind of task registered with the supervisor by `main`. -/
inductive TaskKind where
  | signalListener
  | httpListener
  | grpcListener
  | svcRegister
deriving DecidableEq, Repr

/-- One registration: a task together with its optional cleanup hook, which
receives the task's own exit error and performs a list of actions. -/
structure Registration where
  kind : TaskKind
  clean : Option (Option GoError → List CleanAct)

/-- Modelled from the spec: `_go.SafeAsyncTask` lives in `go-util`, not under
src/.  Per the spec it owns an ordered registry of (task, cleanup-hook) pairs
in registration order. -/
structure SafeAsyncTask where
  regs : List Registration

/-- Modelled from the spec: `_go.NewSafeAsyncTask` constructs a supervisor
with an empty registry (the shared context and stop callback are the ambient
`shareCtx` / `stopAllTaskFunc`). -/
def NewSafeAsyncTask : SafeAsyncTask := ⟨[]⟩

/-- Modelled from the spec: `AddDo` appends a task registration (initially
with no cleanup hook) and returns the supervisor for chaining. -/
def SafeAsyncTask.AddDo (ak : SafeAsyncTask) (k : TaskKind) : SafeAsyncTask :=
  ⟨ak.regs ++ [⟨k, none⟩]⟩

/-- Modelled from the spec: `AddClean` attaches a cleanup hook (possibly nil)
to the most recent registration. -/
def SafeAsyncTask.AddClean (ak : SafeAsyncTask)
    (c : Option (Option GoError → List CleanAct)) : SafeAsyncTask :=
  match ak.regs.getLast? with
  | none => ak
  | some r => ⟨ak.regs.dropLast ++ [{ r with clean := c }]⟩

/-- One observable event of a supervisor run: invocation of the stop callback
with the triggering error, cancellation of the shared context, or execution of
the cleanup hook of the task registered at index `i`, with that task's own
exit error and the actions the hook performed. -/
inductive Event where
  | stopCb (e : Option GoError)
  | cancel
  | clean (i : Nat) (e : Option GoError) (acts : List CleanAct)
deriving DecidableEq, Repr

/-- The registration index a cleanup event refers to (`none` for the other
event kinds). -/
def Event.cleanIdx : Event → Option Nat
  | .clean i _ _ => some i
  | _ => none

/-- `true` exactly on stop-callback events. -/
def Event.isStopCb : Event → Bool
  | .stopCb _ => true
  | _ => false

/-- `true` exactly on context-cancellation events. -/
def Event.isCancel : Event → Bool
  | .cancel => true
  | _ => false

/-- Cleanup phase of a supervisor run over the registrations `rs`, whose first
element sits at registration index `i`: hooks fire one at a time in reverse
registration order, each receiving its own task's exit error `exitErr j`. -/
def cleanupEvents (i : Nat) (rs : List Registration)
    (exitErr : Nat → Option GoError) : List Event :=
  match rs with
  | [] => []
  | r :: rest =>
    cleanupEvents (i + 1) rest exitErr ++
      (match r.clean with
       | some c => [Event.clean i (exitErr i) (c (exitErr i))]
       | none => [])

/-- Modelled from the spec: `SafeAsyncTask.Run` is in `go-util`, not under
src/.  Per the spec it launches all registered tasks, waits for the first one
(index `first`) to exit, invokes the stop callback with that task's error,
cancels the shared context, waits for every task to drain (task `j` exiting
with `exitErr j`), then runs cleanup hooks in reverse registration order, each
with its own task's exit error.  With zero registrations it returns
immediately, producing no events. -/
def SafeAsyncTask.Run (ak : SafeAsyncTask) (exitErr : Nat → Option GoError)
    (first : Nat) : List Event :=
  match ak.regs with
  | [] => []
  | _ :: _ =>
    Event.stopCb (exitErr first) :: Event.cancel :: cleanupEvents 0 ak.regs exitErr

/-- `addTaskListenSignal`: registers `_util.ListenSignalTask` (a second
signal-listener task) with a nil cleanup hook. -/
def addTaskListenSignal (ak : SafeAsyncTask) : SafeAsyncTask :=
  (ak.AddDo .signalListener).AddClean none

/-- `addTaskSvcRegister`: registers `internal.SvcRegisterTask` with the
consul-deregistration cleanup hook. -/
def addTaskSvcRegister (ak : SafeAsyncTask) : SafeAsyncTask :=
  (ak.AddDo .svcRegister).AddClean (some svcRegisterClean)

/-- `addTaskHttpSrv`: registers `httpSrvTask` with the HTTP shutdown cleanup
hook. -/
def addTaskHttpSrv (ak : SafeAsyncTask) : SafeAsyncTask :=
  (ak.AddDo .httpListener).AddClean (some httpSrvClean)

/-- `addTaskGRPCSrv`: registers `grpcSrvTask` with the gRPC graceful-stop
cleanup hook. -/
def addTaskGRPCSrv (ak : SafeAsyncTask) : SafeAsyncTask :=
  (ak.AddDo .grpcListener).AddClean (some grpcSrvClean)

/-- The supervisor exactly as `main` populates it before calling `Run`: the
inline signal task (no cleanup), then `addTaskListenSignal`, then
`addTaskHttpSrv`, then `addTaskGRPCSrv`, then `addTaskSvcRegister`. -/
def mainSupervisor : SafeAsyncTask :=
  addTaskSvcRegister (addTaskGRPCSrv (addTaskHttpSrv (addTaskListenSignal
    (NewSafeAsyncTask.AddDo .signalListener))))

/-- The event trace of `main`'s supervisor run, given each task's exit error
and the index of the first task to exit. -/
def mainRun (exitErr : Nat → Option GoError) (first : Nat) : List Event :=
  mainSupervisor.Run exitErr first

/-- Position (in the run trace) of the cleanup event of the task registered at
index `i`, if any. -/
def cleanPos (tr : List Event) (i : Nat) : Option Nat :=
  tr.findIdx? fun ev => ev.cleanIdx = some i

/-- All cleanup actions performed anywhere in a run trace. -/
def allActs (tr : List Event) : List CleanAct :=
  tr.flatMap fun ev =>
    match ev with
    | .clean _ _ acts => acts
    | _ => []

/-- Every event produced by the cleanup phase is the cleanup of some task
registered at index at least `k`. -/
theorem cleanupEvents_shape (rs : List Registration) (k : Nat)
    (f : Nat → Option GoError) (ev : Event) (h : ev ∈ cleanupEvents k rs f) :
    ∃ i e a, ev = Event.clean i e a ∧ k ≤ i := by
  induction rs generalizing k with
  | nil => simp [cleanupEvents] at h
  | cons r rest ih =>
    simp only [cleanupEvents, List.mem_append] at h
    rcases h with h | h
    · obtain ⟨i, e, a, rfl, hk⟩ := ih (k + 1) h
      exact ⟨i, e, a, rfl, by omega⟩
    · cases hc : r.clean with
      | none => rw [hc] at h; simp at h
      | some c =>
        rw [hc] at h
        simp only [List.mem_singleton] at h
        exact ⟨k, f k, c (f k), h, Nat.le_refl k⟩

/-- A cleanup event for index `i` carries task `i`'s own exit error and the
actions of task `i`'s own hook applied to that error. -/
theorem cleanupEvents_mem (rs : List Registration) (k : Nat)
    (f : Nat → Option GoError) (i : Nat) (e : Option GoError) (a : List CleanAct)
    (h : Event.clean i e a ∈ cleanupEvents k rs f) :
    k ≤ i ∧ e = f i ∧
      ((rs[i - k]?.bind fun r => r.clean).map fun c => c (f i)) = some a := by
  induction rs generalizing k with
  | nil => simp [cleanupEvents] at h
  | cons r rest ih =>
    simp only [cleanupEvents, List.mem_append] at h
    rcases h with h | h
    · obtain ⟨hk, he, hopt⟩ := ih (k + 1) h
      refine ⟨by omega, he, ?_⟩
      have hik : i - k = (i - (k + 1)) + 1 := by omega
      rw [hik]
      simpa using hopt
    · cases hc : r.clean with
      | none => rw [hc] at h; simp at h
      | some c =>
        rw [hc] at h
        simp only [List.mem_singleton, Event.clean.injEq] at h
        obtain ⟨rfl, rfl, rfl⟩ := h
        exact ⟨Nat.le_refl _, rfl, by simp [Nat.sub_self, hc]⟩

/-- The cleanup phase invokes no stop callback. -/
theorem cleanupEvents_filter_stopCb (rs : List Registration) (k : Nat)
    (f : Nat → Option GoError) :
    (cleanupEvents k rs f).filter Event.isStopCb = [] := by
  rw [List.filter_eq_nil_iff]
  intro ev hev
  obtain ⟨i, e, a, rfl, _⟩ := cleanupEvents_shape rs k f ev hev
  simp [Event.isStopCb]

/-- The cleanup phase performs no context cancellation. -/
theorem cleanupEvents_filter_cancel (rs : List Registration) (k : Nat)
    (f : Nat → Option GoError) :
    (cleanupEvents k rs f).filter Event.isCancel = [] := by
  rw [List.filter_eq_nil_iff]
  intro ev hev
  obtain ⟨i, e, a, rfl, _⟩ := cleanupEvents_shape rs k f ev hev
  simp [Event.isCancel]

/-- The registration indices of the cleanup phase appear in strictly
decreasing order: hooks fire in reverse registration order. -/
theorem cleanupEvents_pairwise (rs : List Registration) (k : Nat)
    (f : Nat → Option GoError) :
    ((cleanupEvents k rs f).filterMap Event.cleanIdx).Pairwise (· > ·) := by
  induction rs generalizing k with
  | nil => simp [cleanupEvents]
  | cons r rest ih =>
    simp only [cleanupEvents, List.filterMap_append]
    rw [List.pairwise_append]
    refine ⟨ih (k + 1), ?_, ?_⟩
    · cases hc : r.clean <;> simp [Event.cleanIdx]
    · intro x hx y hy
      obtain ⟨ev, hev, hx2⟩ := List.mem_filterMap.mp hx
      obtain ⟨i, e, a, rfl, hk⟩ := cleanupEvents_shape rest (k + 1) f ev hev
      simp only [Event.cleanIdx, Option.some.injEq] at hx2
      have hy2 : y = k := by
        cases hc : r.clean with
        | none => rw [hc] at hy; simp at hy
        | some c =>
          rw [hc] at hy
          simpa [Event.cleanIdx] using hy
      omega

/-- C1: for a supervisor run with at least one task, the trace contains
exactly one stop-callback invocation, carrying the first exiter's error, and
exactly one cancellation of the shared context; `stopAllTaskFunc` cancels the
shared context, and cancelling an already-cancelled context changes nothing. -/
theorem first_failure_propagates (ak : SafeAsyncTask)
    (exitErr : Nat → Option GoError) (first : Nat) (h : 0 < ak.regs.length) :
    (ak.Run exitErr first).filter Event.isStopCb = [Event.stopCb (exitErr first)] ∧
    (ak.Run exitErr first).filter Event.isCancel = [Event.cancel] ∧
    (∀ st e, (stopAllTaskFunc e st).ctx = cancelCtx st.ctx) ∧
    (∀ c : GoContext, c.cancelled = true → cancelCtx c = c) := by
  refine ⟨?_, ?_, fun st e => rfl, ?_⟩
  · cases hr : ak.regs with
    | nil => rw [hr] at h; simp at h
    | cons r rest =>
      simp [SafeAsyncTask.Run, hr, List.filter_cons, Event.isStopCb, Event.isCancel,
        cleanupEvents_filter_stopCb]
  · cases hr : ak.regs with
    | nil => rw [hr] at h; simp at h
    | cons r rest =>
      simp [SafeAsyncTask.Run, hr, List.filter_cons, Event.isStopCb, Event.isCancel,
        cleanupEvents_filter_cancel]
  · intro c hc
    cases c
    simp_all [cancelCtx]

/-- A run in which the first-registered task (the inline signal listener)
exits first with a signal error and every other task drains cleanly. -/
def demoExit : Nat → Option GoError := fun i =>
  if i = 0 then some "recv-signal:interrupt" else none

/-- Witness for `first_failure_propagates` at `main`'s supervisor, with the
signal task (index 0) exiting first. -/
theorem first_failure_propagates_witness :
    (mainSupervisor.Run demoExit 0).filter Event.isStopCb =
        [Event.stopCb (demoExit 0)] ∧
    (mainSupervisor.Run demoExit 0).filter Event.isCancel = [Event.cancel] ∧
    (stopAllTaskFunc (some "boom") ⟨shareCtx, []⟩).ctx = cancelCtx shareCtx ∧
    cancelCtx (cancelCtx shareCtx) = cancelCtx shareCtx := by
  obtain ⟨h1, h2, h3, h4⟩ :=
    first_failure_propagates mainSupervisor demoExit 0 (by decide)
  exact ⟨h1, h2, h3 ⟨shareCtx, []⟩ (some "boom"), h4 (cancelCtx shareCtx) rfl⟩

/-- C2: cleanup hooks fire in strictly reverse registration order, and every
cleanup event for registration index `i` carries task `i`'s own exit error and
the actions of task `i`'s own hook (never another task's error). -/
theorem cleanup_reverse_order (ak : SafeAsyncTask)
    (exitErr : Nat → Option GoError) (first : Nat) :
    ((ak.Run exitErr first).filterMap Event.cleanIdx).Pairwise (· > ·) ∧
    (∀ i e a, Event.clean i e a ∈ ak.Run exitErr first →
      e = exitErr i ∧
        ((ak.regs[i]?.bind fun r => r.clean).map fun c => c (exitErr i)) = some a) := by
  constructor
  · cases hr : ak.regs with
    | nil => simp [SafeAsyncTask.Run, hr]
    | cons r rest =>
      simp only [SafeAsyncTask.Run, hr, List.filterMap_cons]
      simpa [Event.cleanIdx] using cleanupEvents_pairwise (r :: rest) 0 exitErr
  · intro i e a hmem
    cases hr : ak.regs with
    | nil => rw [SafeAsyncTask.Run, hr] at hmem; simp at hmem
    | cons r rest =>
      rw [SafeAsyncTask.Run, hr] at hmem
      simp only [List.mem_cons] at hmem
      rcases hmem with h | h | h
      · exact absurd h (by simp)
      · exact absurd h (by simp)
      · have := cleanupEvents_mem (r :: rest) 0 exitErr i e a h
        simpa using this

/-- Witness for `cleanup_reverse_order` at `main`'s supervisor: the registry
task's cleanup event is in the trace and carries its own (nil) exit error. -/
theorem cleanup_reverse_order_witness :
    ((mainRun demoExit 0).filterMap Event.cleanIdx).Pairwise (· > ·) ∧
    demoExit 4 = demoExit 4 ∧
    ((mainSupervisor.regs[4]?.bind fun r => r.clean).map fun c => c (demoExit 4)) =
      some (svcRegisterClean (demoExit 4)) := by
  have h := cleanup_reverse_order mainSupervisor demoExit 0
  have h2 := h.2 4 (demoExit 4) (svcRegisterClean (demoExit 4)) (by decide)
  exact ⟨h.1, rfl, h2.2⟩

/-- C3: the signal-listener task registered first in `main` returns a non-nil
error naming the received signal when a termination signal wins its `select`,
and returns nil when cancellation of the shared context wins. -/
theorem signal_task_exit :
    (∀ s, listenSignalInlineTask (.signalArrived s) =
        some ("recv-signal:" ++ signalName s) ∧
      (listenSignalInlineTask (.signalArrived s)).isSome = true) ∧
    listenSignalInlineTask .ctxDone = none :=
  ⟨fun s => ⟨rfl, rfl⟩, rfl⟩

/-- C4: each listener cleanup hook performs its graceful shutdown exactly when
the run loop returned a nil error; on a non-nil error the hook performs no
action at all. -/
theorem listener_clean_iff_nil_exit :
    (∀ e, CleanAct.httpShutdown (some 2) ∈ httpSrvClean e ↔ e = none) ∧
    (∀ e, CleanAct.grpcGracefulStop ∈ grpcSrvClean e ↔ e = none) ∧
    (∀ e, e ≠ none → httpSrvClean e = [] ∧ grpcSrvClean e = []) := by
  refine ⟨fun e => ?_, fun e => ?_, fun e he => ?_⟩ <;>
    cases e <;> simp_all [httpSrvClean, grpcSrvClean]

/-- Witness for `listener_clean_iff_nil_exit`: with a nil exit error the hooks
shut the servers down; with a non-nil exit error they do nothing. -/
theorem listener_clean_iff_nil_exit_witness :
    CleanAct.httpShutdown (some 2) ∈ httpSrvClean none ∧
    CleanAct.grpcGracefulStop ∈ grpcSrvClean none ∧
    httpSrvClean (some "boom") = [] ∧
    grpcSrvClean (some "boom") = [] := by
  have h := listener_clean_iff_nil_exit
  exact ⟨(h.1 none).mpr rfl, (h.2.1 none).mpr rfl,
    (h.2.2 (some "boom") (by simp)).1, (h.2.2 (some "boom") (by simp)).2⟩

/-- The full event trace of every `main` supervisor run: one stop-callback
invocation, one cancellation, then the cleanups of registrations 4 (registry),
3 (gRPC), 2 (HTTP); registrations 0 and 1 (the signal listeners) have no
hook. -/
theorem mainRun_eq (exitErr : Nat → Option GoError) (first : Nat) :
    mainRun exitErr first =
      [Event.stopCb (exitErr first), Event.cancel,
       Event.clean 4 (exitErr 4) (svcRegisterClean (exitErr 4)),
       Event.clean 3 (exitErr 3) (grpcSrvClean (exitErr 3)),
       Event.clean 2 (exitErr 2) (httpSrvClean (exitErr 2))] := rfl

/-- A run in which the registry-registration task (index 4) exits first, with
a non-nil error, and every other task drains cleanly. -/
def regFailExit : Nat → Option GoError := fun i =>
  if i = 4 then some "svc-register-failed" else none

/-- C5 counterexample: in the `main` run where the registry task itself exits
with a non-nil error, its cleanup hook fires but performs no consul
deregistration anywhere in the shutdown. -/
theorem svcRegister_clean_counterexample :
    CleanAct.consulDeregister ∉ allActs (mainRun regFailExit 4) := by decide

/-- C5 amended: in every `main` supervisor run the registry task's cleanup
fires strictly before the gRPC and HTTP cleanups, and it performs the consul
deregistration precisely when the registry task's own exit error was nil. -/
theorem svcRegister_clean_order (exitErr : Nat → Option GoError) (first : Nat) :
    cleanPos (mainRun exitErr first) 4 = some 2 ∧
    cleanPos (mainRun exitErr first) 3 = some 3 ∧
    cleanPos (mainRun exitErr first) 2 = some 4 ∧
    (exitErr 4 = none →
      CleanAct.consulDeregister ∈ allActs (mainRun exitErr first)) ∧
    (∀ e, exitErr 4 = some e →
      CleanAct.consulDeregister ∉ allActs (mainRun exitErr first)) := by
  refine ⟨rfl, rfl, rfl, fun h4 => ?_, fun e h4 => ?_⟩
  · rw [allActs, mainRun_eq, h4]
    simp [svcRegisterClean, httpSrvClean, grpcSrvClean]
  · rw [allActs, mainRun_eq, h4]
    cases h3 : exitErr 3 <;> cases h2 : exitErr 2 <;>
      simp [svcRegisterClean, httpSrvClean, grpcSrvClean]

/-- Witness for `svcRegister_clean_order`: the clean run deregisters (and the
registry cleanup sits at trace position 2, before gRPC and HTTP), while the
run whose registry task failed does not deregister. -/
theorem svcRegister_clean_order_witness :
    cleanPos (mainRun demoExit 0) 4 = some 2 ∧
    cleanPos (mainRun demoExit 0) 3 = some 3 ∧
    cleanPos (mainRun demoExit 0) 2 = some 4 ∧
    CleanAct.consulDeregister ∈ allActs (mainRun demoExit 0) ∧
    CleanAct.consulDeregister ∉ allActs (mainRun regFailExit 0) := by
  obtain ⟨h1, h2, h3, h4, _⟩ := svcRegister_clean_order demoExit 0
  obtain ⟨_, _, _, _, h5⟩ := svcRegister_clean_order regFailExit 0
  exact ⟨h1, h2, h3, h4 rfl, h5 "svc-register-failed" rfl⟩

/-- C6 counterexample: when `net.Listen` fails, neither listener task returns
at all — the bind error does not surface as a returned task error. -/
theorem bind_failure_counterexample :
    (httpSrvTask (Except.error "listen tcp: bind failed") none).isReturned = false ∧
    (grpcSrvTask (Except.error "listen tcp: bind failed") none).isReturned = false :=
  ⟨rfl, rfl⟩

/-- C6 amended: a bind failure makes the listener task panic with the bind
error (via `PanicIfErr`) instead of returning it to the supervisor; only when
the bind succeeds does the task return, and then it returns the serve error. -/
theorem bind_failure_panics (e : GoError) (serveRet : Option GoError) :
    httpSrvTask (Except.error e) serveRet = .panicked e ∧
    grpcSrvTask (Except.error e) serveRet = .panicked e ∧
    httpSrvTask (Except.ok ()) serveRet = .returned serveRet ∧
    grpcSrvTask (Except.ok ()) serveRet = .returned serveRet :=
  ⟨rfl, rfl, rfl, rfl⟩

/-- C7 counterexample: on a nil exit error the gRPC cleanup performs a
graceful-stop call that carries no deadline at all. -/
theorem grpc_stop_unbounded_counterexample :
    CleanAct.grpcGracefulStop ∈ grpcSrvClean none ∧
    CleanAct.grpcGracefulStop.stopBound = some none := by decide

/-- C7 amended: the HTTP cleanup's only graceful-stop call is bounded by a
2-second deadline, but the gRPC cleanup's only graceful-stop call is
unbounded; neither hook makes a graceful-stop call on a non-nil exit error. -/
theorem listener_stop_bounds (e : Option GoError) :
    (httpSrvClean e).filterMap CleanAct.stopBound =
      (if e = none then [some 2] else []) ∧
    (grpcSrvClean e).filterMap CleanAct.stopBound =
      (if e = none then [none] else []) := by
  cases e <;> simp [httpSrvClean, grpcSrvClean, CleanAct.stopBound]

/-- C8: `main` registers, in order, a signal listener first (two of them),
then the HTTP listener, then the gRPC listener, and the registry task last;
the supervisor run only ever fires cleanups of those registered indices. -/
theorem main_registration_order :
    mainSupervisor.regs.map Registration.kind =
      [.signalListener, .signalListener, .httpListener, .grpcListener, .svcRegister] ∧
    (mainSupervisor.regs.map Registration.kind).head? = some .signalListener ∧
    (mainSupervisor.regs.map Registration.kind).getLast? = some .svcRegister ∧
    (∀ exitErr first i e a, Event.clean i e a ∈ mainRun exitErr first →
      i < mainSupervisor.regs.length) := by
  refine ⟨rfl, rfl, rfl, fun exitErr first i e a hmem => ?_⟩
  rw [mainRun_eq] at hmem
  simp only [List.mem_cons, List.not_mem_nil, or_false,
    Event.clean.injEq, reduceCtorEq, false_or] at hmem
  rcases hmem with ⟨rfl, -, -⟩ | ⟨rfl, -, -⟩ | ⟨rfl, -, -⟩ <;> decide

/-- Witness for `main_registration_order`: the registry cleanup event of the
demo run refers to registered index 4, below the registry length 5. -/
theorem main_registration_order_witness :
    mainSupervisor.regs.map Registration.kind =
      [.signalListener, .signalListener, .httpListener, .grpcListener, .svcRegister] ∧
    4 < mainSupervisor.regs.length := by
  have h := main_registration_order
  exact ⟨h.1, h.2.2.2 demoExit 0 4 (demoExit 4) (svcRegisterClean (demoExit 4))
    (by decide)⟩

/-- Request of the `Sum` endpoint. -/
structure SumRequest where
  A : Int
  B : Int

/-- Response of the `Sum` endpooint; only its `V` field is read here. -/
structure SumResponse where
  V : Int

/-- Request of the `Concat` endpoint. -/
structure ConcatRequest where
  A : String
  B : String

/-- Response of the `Concat` endpoint; only its `V` field is read here. -/
structure ConcatResponse where
  V : String

/-- The dynamic type of the `interface\x7b\x7d` result an endpoint returns: a
concrete response struct, Go's nil, or a value of any other type. -/
inductive GoValue where
  | sumResp (r : SumResponse)
  | concatResp (r : ConcatResponse)
  | nilValue
  | otherValue (tag : String)

/-- Outcome of an operation containing an unchecked type assertion: a normal
return of the value and error, or a runtime panic when the assertion fails. -/
inductive AssertOutcome (α : Type) where
  | ok (v : α) (err : Option GoError)
  | panicked

/-- `AddSvcEndpoints`: the per-operation endpoints, each returning a generic
result and an error. -/
structure AddSvcEndpoints where
  SumEndpoint : SumRequest → GoValue × Option GoError
  ConcatEndpoint : ConcatRequest → GoValue × Option GoError

/-- `AddSvcEndpoints.Sum`: calls `SumEndpoint` and casts the generic result to
`SumResponse` with an unchecked type assertion (`resp.(SumResponse)`), then
returns `response.V` together with the endpoint's error. -/
def AddSvcEndpoints.Sum (E : AddSvcEndpoints) (a b : Int) : AssertOutcome Int :=
  let (resp, err) := E.SumEndpoint ⟨a, b⟩
  match resp with
  | .sumResp response => .ok response.V err
  | _ => .panicked

/-- `AddSvcEndpoints.Concat`: calls `ConcatEndpoint` and casts the generic
result to `ConcatResponse` with an unchecked type assertion, then returns
`response.V` together with the endpoint's error. -/
def AddSvcEndpoints.Concat (E : AddSvcEndpoints) (a b : String) : AssertOutcome String :=
  let (resp, err) := E.ConcatEndpoint ⟨a, b⟩
  match resp with
  | .concatResp response => .ok response.V err
  | _ => .panicked

/-- C9: `Sum`/`Concat` return the response's `V` field together with the
endpoint's error exactly when the generic result has the expected concrete
type; any other result — including nil alongside a non-nil error — has no
guarded fallback and panics. -/
theorem endpoint_assert_unchecked (E : AddSvcEndpoints) (a b : Int)
    (s t : String) :
    (∀ r err, E.SumEndpoint ⟨a, b⟩ = (.sumResp r, err) →
      E.Sum a b = .ok r.V err) ∧
    (∀ resp err, E.SumEndpoint ⟨a, b⟩ = (resp, err) →
      (∀ r, resp ≠ GoValue.sumResp r) → E.Sum a b = .panicked) ∧
    (∀ r err, E.ConcatEndpoint ⟨s, t⟩ = (.concatResp r, err) →
      E.Concat s t = .ok r.V err) ∧
    (∀ resp err, E.ConcatEndpoint ⟨s, t⟩ = (resp, err) →
      (∀ r, resp ≠ GoValue.concatResp r) → E.Concat s t = .panicked) := by
  refine ⟨fun r err h => ?_, fun resp err h hne => ?_,
    fun r err h => ?_, fun resp err h hne => ?_⟩
  · simp [AddSvcEndpoints.Sum, h]
  · cases hr : resp <;> rw [hr] at h hne <;>
      first
        | exact absurd rfl (hne _)
        | simp [AddSvcEndpoints.Sum, h]
  · simp [AddSvcEndpoints.Concat, h]
  · cases hr : resp <;> rw [hr] at h hne <;>
      first
        | exact absurd rfl (hne _)
        | simp [AddSvcEndpoints.Concat, h]

/-- Endpoints that fail as a broken circuit breaker would: a nil generic
result alongside a non-nil error. -/
def demoEndpoints : AddSvcEndpoints where
  SumEndpoint := fun _ => (.nilValue, some "circuit breaker open")
  ConcatEndpoint := fun q => (.concatResp ⟨q.A ++ q.B⟩, none)

/-- Witness for `endpoint_assert_unchecked`: with a nil result and non-nil
error, `Sum` panics; with a well-typed result, `Concat` returns its `V`. -/
theorem endpoint_assert_unchecked_witness :
    demoEndpoints.Sum 1 2 = .panicked ∧
    demoEndpoints.Concat "a" "b" = .ok "ab" none := by
  obtain ⟨-, h2, h3, -⟩ := endpoint_assert_unchecked demoEndpoints 1 2 "a" "b"
  exact ⟨h2 .nilValue (some "circuit breaker open") rfl
      (fun r h => GoValue.noConfusion h),
    h3 ⟨"ab"⟩ none rfl⟩

/-- `basicHelloService`: the naive, stateless `HelloService` implementation. -/
structure basicHelloService where

/-- `basicHelloService.SayHi`: the unimplemented business logic returns the
named return values untouched, i.e. the zero values: empty reply, nil error. -/
def basicHelloService.SayHi (_ : basicHelloService) (_ : GoContext)
    (name say : String) : String × Option GoError :=
  let reply : String := ""
  let err : Option GoError := none
  (reply, err)

/-- C10: for every context and every pair of input strings, `SayHi` returns
the empty string and a nil error — it succeeds rather than reporting any
"unimplemented" error. -/
theorem sayHi_empty_nil (b : basicHelloService) (ctx : GoContext)
    (name say : String) :
    b.SayHi ctx name say = ("", none) ∧
    (b.SayHi ctx name say).2.isNone = true :=
  ⟨rfl, rfl⟩
